import Mathlib

/-!
Verification development for the vscode-markdown-editor synchronization core.

The definitions below are shallow embeddings of the host-side extension
(src/unnamed/part_000) and the webview surface (src/media-src/src/main.tsx).
Content strings are modelled as `String` or `List Char`; the two JavaScript
event loops are modelled as explicit state passing, with observable actions
(messages posted across the host/surface boundary, editor mutations,
outline-refresh scheduling, file writes) collected into explicit lists.
-/

namespace MdEditor

/-! ## Line-ending normalization (host, `normalizeContentForDocument`, lines 80-84)

The source first replaces every `\r\n` with `\n`, then every remaining `\r`
with `\n`; for a CRLF document it finally re-expands every `\n` to `\r\n`.
-/

/-- The document's end-of-line convention (`vscode.EndOfLine`). -/
inductive EolKind
  | lf
  | crlf
deriving DecidableEq

/-- First pass of `content.replace(/\r\n/g, '\n')`: a left-to-right scan that
collapses each non-overlapping `"\r\n"` pair to `'\n'`. -/
def stripCRLF : List Char → List Char
  | '\r' :: '\n' :: rest => '\n' :: stripCRLF rest
  | c :: rest => c :: stripCRLF rest
  | [] => []

/-- Second pass `content.replace(/\r/g, '\n')`: each remaining `'\r'` becomes `'\n'`. -/
def crToLf (c : Char) : Char := if c = '\r' then '\n' else c

/-- Map the second replacement pass over the whole content. -/
def mapCR (l : List Char) : List Char := l.map crToLf

/-- Re-expansion pass `normalizedLf.replace(/\n/g, '\r\n')` for CRLF documents. -/
def expandLF : List Char → List Char
  | '\n' :: rest => '\r' :: '\n' :: expandLF rest
  | c :: rest => c :: expandLF rest
  | [] => []

/-- Embedding of `normalizeContentForDocument` (src/unnamed/part_000 lines 80-84). -/
def normalizeContentForDocument (content : List Char) (eol : EolKind) : List Char :=
  let normalizedLf := mapCR (stripCRLF content)
  match eol with
  | EolKind.lf => normalizedLf
  | EolKind.crlf => expandLF normalizedLf

theorem mapCR_no_cr (l : List Char) : '\r' ∉ mapCR l := by
  intro hmem
  rcases List.mem_map.mp hmem with ⟨c, _, hc⟩
  unfold crToLf at hc
  split at hc <;> simp_all

theorem stripCRLF_of_no_cr (l : List Char) (h : '\r' ∉ l) : stripCRLF l = l := by
  induction l using stripCRLF.induct with
  | case1 rest ih => simp at h
  | case2 c rest hne ih =>
    simp only [List.mem_cons, not_or] at h
    rw [stripCRLF.eq_2 c rest hne, ih h.2]
  | case3 => rfl

theorem mapCR_of_no_cr (l : List Char) (h : '\r' ∉ l) : mapCR l = l := by
  induction l with
  | nil => rfl
  | cons c rest ih =>
    simp only [List.mem_cons, not_or] at h
    simp only [mapCR, List.map_cons] at *
    rw [ih h.2]
    unfold crToLf
    rw [if_neg (fun hcr => h.1 hcr.symm)]

theorem stripCRLF_expandLF (l : List Char) (h : '\r' ∉ l) : stripCRLF (expandLF l) = l := by
  induction l with
  | nil => rfl
  | cons c rest ih =>
    simp only [List.mem_cons, not_or] at h
    have hc : c ≠ '\r' := fun hcr => h.1 hcr.symm
    have ihr := ih h.2
    by_cases hn : c = '\n'
    · subst hn
      rw [show expandLF ('\n' :: rest) = '\r' :: '\n' :: expandLF rest from rfl,
        stripCRLF.eq_1, ihr]
    · rw [expandLF.eq_2 c rest (fun hcn => hn hcn),
        stripCRLF.eq_2 c (expandLF rest) (fun _ hcr _ => hc hcr), ihr]

/-- C4: line-ending normalization is idempotent: for every content string and
both document end-of-line conventions (LF and CRLF), applying
`normalizeContentForDocument` twice gives the same result as applying it once. -/
theorem normalizeContentForDocument_idempotent (content : List Char) (eol : EolKind) :
    normalizeContentForDocument (normalizeContentForDocument content eol) eol =
      normalizeContentForDocument content eol := by
  unfold normalizeContentForDocument
  have hnocr : '\r' ∉ mapCR (stripCRLF content) := mapCR_no_cr _
  cases eol with
  | lf =>
    simp only
    rw [stripCRLF_of_no_cr _ hnocr, mapCR_of_no_cr _ hnocr]
  | crlf =>
    simp only
    rw [stripCRLF_expandLF _ hnocr, mapCR_of_no_cr _ hnocr]

/-! ## Host document state and the webview-apply guard
(src/unnamed/part_000, `resolveCustomTextEditor`)

`applyContent` (lines 256-273) normalizes the incoming content to the
document's end-of-line convention, returns early when the document already
holds that text, and otherwise performs the workspace edit with
`isApplyingFromWebview` set for the duration.  VS Code delivers the
`onDidChangeTextDocument` event synchronously during `applyEdit`, i.e. while
the flag is still set; the handler (lines 276-287) returns without posting
when the flag is set and otherwise posts a full `update` snapshot.
Posting is recorded as an explicit `HostPost` value.
-/

/-- A message the host posts to the webview surface as a consequence of a
document change (the `postDocumentToWebview('update')` call). -/
inductive HostPost
  | updateSnapshot (content : List Char)
deriving DecidableEq

/-- Host-side per-editor state relevant to the echo guard. -/
structure HostDocState where
  docText : List Char
  eol : EolKind
  isApplyingFromWebview : Bool
deriving DecidableEq

/-- The `onDidChangeTextDocument` handler (lines 276-287), restricted to the
document owned by this editor: posts an `update` snapshot unless the change
was caused by the host itself applying webview content. -/
def onDidChangeTextDocumentHandler (s : HostDocState) : List HostPost :=
  if s.isApplyingFromWebview then [] else [HostPost.updateSnapshot s.docText]

/-- Embedding of `applyContent` (lines 256-273).  The result is the host state after the
call together with every message posted to the webview by the
change-event handler fired by the workspace edit. -/
def applyContent (s : HostDocState) (content : List Char) : HostDocState × List HostPost :=
  let normalizedContent := normalizeContentForDocument content s.eol
  if normalizedContent = s.docText then (s, [])
  else
    let s1 : HostDocState := { s with isApplyingFromWebview := true }
    let s2 : HostDocState := { s1 with docText := normalizedContent }
    let posts := onDidChangeTextDocumentHandler s2
    let s3 : HostDocState := { s2 with isApplyingFromWebview := false }
    (s3, posts)

/-- C3: the host never posts an `update` snapshot to the surface in response
to a document change performed by `applyContent` while handling an `edit` or
`save` message: the change event fired by the workspace edit is delivered
with `isApplyingFromWebview` still set, so the handler posts nothing. -/
theorem applyContent_posts_nothing (s : HostDocState) (content : List Char) :
    (applyContent s content).2 = [] := by
  simp only [applyContent, onDidChangeTextDocumentHandler]
  split <;> simp

/-! ## Surface-side echo-suppression sync engine
(src/media-src/src/main.tsx, `EditorApp`)

The refs `readyRef`, `applyingRemoteRef`, `hasUserInteractionRef`,
`lastSyncedMarkdownRef` and `pendingRemoteContentRef` plus the editor's
markdown projection form the state.  Observable actions are collected as
`SurfaceEffect`s: a posted `edit` message, a call to `editor.setDocument`,
and a `scheduleTocSync` outline-refresh trigger.  The engine's markdown and
text projections of the editor document are both modelled by the single
`editorContent` string, and the Lexical update listener (lines 535-544) is
modelled as firing synchronously inside `setDocument` whenever the content
actually changed.
-/

/-- Observable surface-side action. -/
inductive SurfaceEffect
  | postEdit (content : String)
  | setDoc (content : String)
  | tocSync
deriving DecidableEq

/-- Surface-side sync-engine state. -/
structure SurfaceState where
  ready : Bool
  applyingRemote : Bool
  hasUserInteraction : Bool
  lastSynced : String
  pending : Option String
  editorContent : String
deriving DecidableEq

/-- Embedding of `syncToHost` (main.tsx lines 352-372): the local-change path of the
echo-suppression engine, invoked on each change notification delivered by
the editing engine. -/
def syncToHost (s : SurfaceState) : SurfaceState × List SurfaceEffect :=
  if s.applyingRemote then (s, [])
  else if s.hasUserInteraction = false then (s, [])
  else
    let markdown := s.editorContent
    if markdown = s.lastSynced then (s, [])
    else ({ s with lastSynced := markdown }, [SurfaceEffect.postEdit markdown])

/-- The Lexical update listener (lines 535-544): when the document content
actually changed it runs `syncToHost` and schedules an outline refresh. -/
def triggerUpdateListener (s : SurfaceState) (oldContent : String) :
    SurfaceState × List SurfaceEffect :=
  if s.editorContent = oldContent then (s, [])
  else
    let r := syncToHost s
    (r.1, r.2 ++ [SurfaceEffect.tocSync])

/-- Model of `editor.setDocument('markdown', markdown, { keepId: true })`: replaces the
editor content and synchronously fires the update listener. -/
def setDocument (s : SurfaceState) (markdown : String) : SurfaceState × List SurfaceEffect :=
  let old := s.editorContent
  let s1 : SurfaceState := { s with editorContent := markdown }
  let r := triggerUpdateListener s1 old
  (r.1, SurfaceEffect.setDoc markdown :: r.2)

/-- Embedding of `setEditorMarkdown` (main.tsx lines 327-350): the remote-update path.
Clears the user-interaction latch, buffers the content when the editor is
not ready yet, short-circuits when the editor already holds the content,
and otherwise replaces the content under the `applyingRemote` guard. -/
def setEditorMarkdown (s : SurfaceState) (markdown : String) :
    SurfaceState × List SurfaceEffect :=
  let s0 : SurfaceState := { s with hasUserInteraction := false }
  if s0.ready = false then ({ s0 with pending := some markdown }, [])
  else if s0.editorContent = markdown then ({ s0 with lastSynced := markdown }, [])
  else
    let s1 : SurfaceState := { s0 with applyingRemote := true }
    let r := setDocument s1 markdown
    let s2 : SurfaceState := { r.1 with applyingRemote := false }
    let s3 : SurfaceState := { s2 with lastSynced := markdown }
    (s3, r.2 ++ [SurfaceEffect.tocSync])

/-- The editor `onInit` handler (main.tsx lines 875-888): marks the engine
ready, applies the buffered pre-ready content (if any) under the
`applyingRemote` guard, records it as last synced, and schedules an outline
refresh. -/
def editorInitHandler (s : SurfaceState) : SurfaceState × List SurfaceEffect :=
  let s0 : SurfaceState := { s with ready := true }
  match s0.pending with
  | none => (s0, [SurfaceEffect.tocSync])
  | some pendingContent =>
    let s1 : SurfaceState := { s0 with applyingRemote := true }
    let r := setDocument s1 pendingContent
    let s2 : SurfaceState := { r.1 with applyingRemote := false }
    let s3 : SurfaceState := { s2 with lastSynced := pendingContent }
    (s3, r.2 ++ [SurfaceEffect.tocSync])

/-- C1: on a change notification, `syncToHost` posts an `edit` message if and
only if `applyingRemote` is false, `hasUserInteraction` is true and the
current markdown differs from `lastSynced`; when it posts, `lastSynced` is
first set to the current markdown and the message carries exactly that
markdown, and in every other case nothing is posted and the state (in
particular `lastSynced`) is unchanged. -/
theorem syncToHost_emits_iff (s : SurfaceState) :
    syncToHost s =
      if s.applyingRemote = false ∧ s.hasUserInteraction = true ∧
          s.editorContent ≠ s.lastSynced then
        ({ s with lastSynced := s.editorContent },
          [SurfaceEffect.postEdit s.editorContent])
      else (s, []) := by
  cases hr : s.applyingRemote <;> cases hu : s.hasUserInteraction <;>
    by_cases he : s.editorContent = s.lastSynced <;>
      simp [syncToHost, hr, hu, he]

theorem syncToHost_of_applyingRemote (s : SurfaceState) (h : s.applyingRemote = true) :
    syncToHost s = (s, []) := by
  simp [syncToHost, h]

theorem setEditorMarkdown_ready_ne (s : SurfaceState) (c : String)
    (hready : s.ready = true) (hne : s.editorContent ≠ c) :
    setEditorMarkdown s c =
      ({ s with
          hasUserInteraction := false
          applyingRemote := false
          editorContent := c
          lastSynced := c },
        [SurfaceEffect.setDoc c, SurfaceEffect.tocSync, SurfaceEffect.tocSync]) := by
  have hne' : ¬c = s.editorContent := fun h => hne h.symm
  simp [setEditorMarkdown, setDocument, triggerUpdateListener, syncToHost, hready, hne, hne']

/-- A concrete surface state with the user-interaction latch set and the
editor already holding the incoming snapshot content. -/
def interactedState : SurfaceState :=
  { ready := true, applyingRemote := false, hasUserInteraction := true,
    lastSynced := "a", pending := none, editorContent := "x" }

/-- C2 counterexample: applying a remote snapshot whose content equals the
current editor content does NOT change only `lastSynced`: at this concrete
state (user-interaction latch set, editor already holding "x"),
`setEditorMarkdown` also clears the `hasUserInteraction` latch, so the
resulting state differs from the state with only `lastSynced` updated. -/
theorem setEditorMarkdown_equal_changes_more_than_lastSynced :
    (setEditorMarkdown interactedState "x").2 = [] ∧
    (setEditorMarkdown interactedState "x").1 ≠
      { interactedState with lastSynced := "x" } := by decide

/-- C2 amended: for a snapshot whose content equals the surface's current
content (on a ready editor), applying the remote update changes only
`lastSynced` (set to that content) and the `hasUserInteraction` latch
(cleared to false), with no editor content mutation, no message and no
outline-refresh trigger; and `setEditorMarkdown` immediately repeated with
the same content produces no second content mutation, no message and no
second outline-refresh trigger. -/
theorem setEditorMarkdown_equal_content (s : SurfaceState) (c : String)
    (hready : s.ready = true) :
    (s.editorContent = c →
      setEditorMarkdown s c =
        ({ s with hasUserInteraction := false, lastSynced := c }, [])) ∧
    (setEditorMarkdown (setEditorMarkdown s c).1 c).2 = [] := by
  constructor
  · intro heq
    simp [setEditorMarkdown, hready, heq]
  · by_cases heq : s.editorContent = c
    · simp [setEditorMarkdown, hready, heq]
    · rw [setEditorMarkdown_ready_ne s c hready heq]
      simp [setEditorMarkdown, hready]

/-- Witness for C2's amended theorem at a concrete state. -/
theorem setEditorMarkdown_equal_content_witness :
    interactedState.ready = true ∧ interactedState.editorContent = "x" ∧
    setEditorMarkdown interactedState "x" =
      ({ interactedState with hasUserInteraction := false, lastSynced := "x" }, []) ∧
    (setEditorMarkdown (setEditorMarkdown interactedState "x").1 "x").2 = [] :=
  ⟨rfl, rfl, (setEditorMarkdown_equal_content interactedState "x" rfl).1 rfl,
    (setEditorMarkdown_equal_content interactedState "x" rfl).2⟩

/-- Recognizes an editor-content mutation among the observed effects. -/
def isSetDocEffect : SurfaceEffect → Bool
  | SurfaceEffect.setDoc _ => true
  | _ => false

theorem editorInitHandler_no_postEdit (t : SurfaceState) (m : String) :
    SurfaceEffect.postEdit m ∉ (editorInitHandler t).2 := by
  unfold editorInitHandler
  cases hp : t.pending with
  | none => simp [hp]
  | some p =>
    simp only [hp]
    simp only [setDocument, triggerUpdateListener]
    split
    · simp
    · rw [syncToHost_of_applyingRemote _ rfl]
      simp

/-- C10: an `update` snapshot arriving before the editor engine is ready does
not mutate the editor and does not set `lastSynced`; the content is buffered
in `pending`, each later pre-ready snapshot overwriting the earlier one, and
no message or outline refresh is produced.  When the editor engine then
signals `onInit`, the single most recently buffered content is applied with
exactly one content mutation under the `applyingRemote` guard and
`lastSynced` is then set to that content — and the `onInit` application never
posts an `edit` message (no pre-ready snapshot is echoed back). -/
theorem preInit_update_buffers (s : SurfaceState) (c c' : String)
    (hready : s.ready = false) :
    (setEditorMarkdown s c).1.editorContent = s.editorContent ∧
    (setEditorMarkdown s c).1.lastSynced = s.lastSynced ∧
    (setEditorMarkdown s c).1.pending = some c ∧
    (setEditorMarkdown s c).2 = [] ∧
    (setEditorMarkdown (setEditorMarkdown s c).1 c').1.pending = some c' ∧
    (editorInitHandler (setEditorMarkdown s c).1).1.editorContent = c ∧
    (editorInitHandler (setEditorMarkdown s c).1).1.lastSynced = c ∧
    ((editorInitHandler (setEditorMarkdown s c).1).2.countP isSetDocEffect) = 1 ∧
    (∀ t : SurfaceState, ∀ m : String,
      SurfaceEffect.postEdit m ∉ (editorInitHandler t).2) := by
  have hfirst : setEditorMarkdown s c =
      ({ s with hasUserInteraction := false, pending := some c }, []) := by
    simp [setEditorMarkdown, hready]
  have hinit : ∀ u : SurfaceState, u.pending = some c →
      (editorInitHandler u).1.editorContent = c ∧
      (editorInitHandler u).1.lastSynced = c ∧
      ((editorInitHandler u).2.countP isSetDocEffect) = 1 := by
    intro u hu
    unfold editorInitHandler
    simp only [hu]
    simp only [setDocument, triggerUpdateListener]
    split
    · simp [List.countP, List.countP.go, isSetDocEffect]
    · rw [syncToHost_of_applyingRemote _ rfl]
      simp [List.countP, List.countP.go, isSetDocEffect]
  refine ⟨?_, ?_, ?_, ?_, ?_, ?_, ?_, ?_, ?_⟩
  · rw [hfirst]
  · rw [hfirst]
  · rw [hfirst]
  · rw [hfirst]
  · rw [hfirst]
    simp [setEditorMarkdown, hready]
  · exact (hinit _ (by rw [hfirst])).1
  · exact (hinit _ (by rw [hfirst])).2.1
  · exact (hinit _ (by rw [hfirst])).2.2
  · exact fun t m => editorInitHandler_no_postEdit t m

/-- A concrete not-yet-ready surface state. -/
def bootingState : SurfaceState :=
  { ready := false, applyingRemote := false, hasUserInteraction := false,
    lastSynced := "", pending := none, editorContent := "" }

/-- Witness for C10's theorem at a concrete pre-ready state. -/
theorem preInit_update_buffers_witness :
    bootingState.ready = false ∧
    (setEditorMarkdown bootingState "hello").1.pending = some "hello" ∧
    (setEditorMarkdown (setEditorMarkdown bootingState "hello").1 "world").1.pending
      = some "world" ∧
    (editorInitHandler (setEditorMarkdown bootingState "hello").1).1.lastSynced = "hello" ∧
    ((editorInitHandler (setEditorMarkdown bootingState "hello").1).2.countP isSetDocEffect)
      = 1 :=
  ⟨rfl, (preInit_update_buffers bootingState "hello" "world" rfl).2.2.1,
    (preInit_update_buffers bootingState "hello" "world" rfl).2.2.2.2.1,
    (preInit_update_buffers bootingState "hello" "world" rfl).2.2.2.2.2.2.1,
    (preInit_update_buffers bootingState "hello" "world" rfl).2.2.2.2.2.2.2.1⟩

/-! ## Derived-outline extraction (main.tsx, `updateTocFromDom`, lines 196-243)

A rendered heading element is modelled as its level (1..6, from the tag
name) and its raw text content.  The pure core of `updateTocFromDom` maps
each heading to its trimmed text, filters out headings whose trimmed text is
empty, assigns each survivor the positional identifier `toc-heading-<index>`
and depth `max 0 (level - 1)`, and prepends a synthetic document-title entry
when at least one heading survives.
-/

/-- An outline entry (`TocItem` in main.tsx). -/
structure TocItem where
  depth : Nat
  id : String
  level : Nat
  text : String
deriving DecidableEq

/-- Identifier of the synthetic document-title entry (`tocTitleId`). -/
def tocTitleId : String := "toc-document-title"

/-- The `.map` + `.filter` stage (lines 203-209): trim each heading's text
and keep only headings with nonempty trimmed text. -/
def extractedHeadings (headingNodes : List (Nat × String)) : List (Nat × String) :=
  (headingNodes.map (fun h => (h.1, h.2.trim))).filter (fun h => !(h.2 == ""))

/-- The per-survivor entry built at positional index `idx` (lines 211-220). -/
def mkTocItem (idx : Nat) (h : Nat × String) : TocItem :=
  { depth := max 0 (h.1 - 1), id := "toc-heading-" ++ toString idx,
    level := h.1, text := h.2 }

/-- The outline produced by one `updateTocFromDom` pass (lines 203-235):
survivors indexed in document order, with a synthetic title entry prepended
when the survivor list is nonempty. -/
def nextTocItems (titleText : String) (headingNodes : List (Nat × String)) : List TocItem :=
  let items := (extractedHeadings headingNodes).enum.map (fun p => mkTocItem p.1 p.2)
  if 0 < items.length then
    { depth := 0, id := tocTitleId, level := 1, text := titleText } :: items
  else items

/-- Modelled from the spec's words (§4.4 `extractOutline`), for comparison
with `nextTocItems`: scan headings in document order, skip headings with
empty trimmed text, give each survivor the next positional identifier and
depth `max 0 (level - 1)`. -/
def outlineSpecAux (idx : Nat) : List (Nat × String) → List TocItem
  | [] => []
  | (lv, t) :: rest =>
    if t.trim = "" then outlineSpecAux idx rest
    else
      { depth := max 0 (lv - 1), id := "toc-heading-" ++ toString idx,
        level := lv, text := t.trim } :: outlineSpecAux (idx + 1) rest

/-- Modelled from the spec's words (§4.4): the full outline, with a synthetic
title entry at depth 0 prepended exactly when some heading survives. -/
def outlineSpec (titleText : String) (headingNodes : List (Nat × String)) : List TocItem :=
  match outlineSpecAux 0 headingNodes with
  | [] => []
  | items => { depth := 0, id := tocTitleId, level := 1, text := titleText } :: items

theorem enumFrom_extracted (hs : List (Nat × String)) :
    ∀ idx : Nat,
      ((extractedHeadings hs).enumFrom idx).map (fun p => mkTocItem p.1 p.2) =
        outlineSpecAux idx hs := by
  induction hs with
  | nil => intro idx; rfl
  | cons h t ih =>
    intro idx
    rcases h with ⟨lv, txt⟩
    simp only [extractedHeadings, List.map_cons, List.filter_cons] at *
    by_cases htrim : txt.trim = ""
    · simp only [outlineSpecAux, htrim, if_pos]
      simpa [htrim] using ih idx
    · have hbeq : (txt.trim == "") = false := by
        simp [htrim]
      simp only [outlineSpecAux, htrim, if_neg, hbeq, Bool.not_false, if_true]
      rw [List.enumFrom_cons, List.map_cons]
      exact congrArg _ (ih (idx + 1))

/-- C9: the outline extracted by `updateTocFromDom` scans headings in
document order, skips every heading whose trimmed text is empty, gives each
survivor the positional identifier `toc-heading-<index>` and depth
`max 0 (level - 1)`, and prepends a single synthetic document-title entry at
depth 0 exactly when at least one heading survives; with no surviving
headings the outline is empty. -/
theorem nextTocItems_eq_outlineSpec (titleText : String) (headingNodes : List (Nat × String)) :
    nextTocItems titleText headingNodes = outlineSpec titleText headingNodes := by
  unfold nextTocItems outlineSpec
  have h := enumFrom_extracted headingNodes 0
  rw [show (extractedHeadings headingNodes).enum =
      (extractedHeadings headingNodes).enumFrom 0 from rfl, h]
  cases houtline : outlineSpecAux 0 headingNodes with
  | nil => simp
  | cons x xs => simp

/-! ## Asset upload pipeline (src/unnamed/part_000, lines 116-179 and 355-404)

`saveImageToAssets` derives a base name and extension from the request (via
`safeImageBaseName` / `inferImageExtension`, whose outputs no claim depends
on — they are taken as the `baseName` / `extension` parameters here, just as
the timestamp `stamp` comes from the wall clock), probes for a unique file
name, validates the base64 payload, enforces the 10 MB limit, and writes the
file.  The file system is modelled as the list of existing paths; a
successful save returns the chosen path together with the file system after
the write.  `path.join(dir, name)` is modelled as `dir ++ "/" ++ name`.
The decoded byte count of a validated base64 string follows Node's
`Buffer.from(raw, 'base64').length`: three bytes for every four non-padding
characters, rounded down.
-/

/-- One character of the class `[\w+/]` used by the validation pattern
`^[\w+/]+=*$` (line 161); `\w` is ASCII `[A-Za-z0-9_]`. -/
def isBase64WordChar (c : Char) : Bool :=
  c.isAlpha || c.isDigit || c == '_' || c == '+' || c == '/'

/-- Whether `raw` matches `^[\w+/]+=*$`: a nonempty run of `[\w+/]`
characters followed only by `'='` padding. -/
def matchesBase64Regex (l : List Char) : Bool :=
  let body := l.takeWhile isBase64WordChar
  let rest := l.dropWhile isBase64WordChar
  !body.isEmpty && rest.all (fun c => c == '=')

/-- Strip a data-URI head when a comma is present: everything up to and
including the first `','` is dropped (lines 157-159). -/
def stripDataUri (l : List Char) : List Char :=
  if ',' ∈ l then (l.dropWhile (fun c => !(c == ','))).drop 1 else l

/-- Decoded byte count of a validated base64 string, following Node's
`Buffer.from(raw, 'base64').length`. -/
def base64DecodedLength (l : List Char) : Nat :=
  ((l.filter (fun c => !(c == '='))).length * 3) / 4

/-- The candidate file name tried at probe `index` (lines 130-131):
`baseName-stamp.ext` for index 0, `baseName-stamp-<index>.ext` afterwards. -/
def candidateFileName (baseName stamp extension : String) (index : Nat) : String :=
  baseName ++ "-" ++ stamp ++ (if index = 0 then "" else "-" ++ toString index) ++ extension

/-- The candidate absolute path tried at probe `index` (line 132). -/
def candidatePath (assetsDir baseName stamp extension : String) (index : Nat) : String :=
  assetsDir ++ "/" ++ candidateFileName baseName stamp extension index

/-- The probe loop of `createUniqueImageFilePath` (lines 129-141): starting
at `index` with `fuel` attempts left, return the first candidate that does
not already exist, or fail when the attempts are exhausted. -/
def probeUniquePath (fsEntries : List String) (assetsDir baseName stamp extension : String) :
    Nat → Nat → Except String String
  | _, 0 => Except.error "Could not generate a unique image filename. Please try again."
  | index, fuel + 1 =>
    let candidate := candidatePath assetsDir baseName stamp extension index
    if candidate ∈ fsEntries then
      probeUniquePath fsEntries assetsDir baseName stamp extension (index + 1) fuel
    else Except.ok candidate

/-- Embedding of `createUniqueImageFilePath` (lines 116-142): 1000 probe attempts. -/
def createUniqueImageFilePath (fsEntries : List String)
    (assetsDir baseName extension stamp : String) : Except String String :=
  probeUniquePath fsEntries assetsDir baseName stamp extension 0 1000

/-- Decimal model of `(buffer.length / 1024 / 1024).toFixed(1)` used in the
oversize error message (line 172): megabytes rounded to one decimal digit. -/
def mbTenths (n : Nat) : String :=
  let tenths := (n * 10 + 524288) / 1048576
  toString (tenths / 10) ++ "." ++ toString (tenths % 10)

/-- The oversize error message (line 172). -/
def sizeLimitErrorMessage (decodedLen : Nat) : String :=
  "Image exceeds the 10 MB size limit (got " ++ mbTenths decodedLen ++ " MB)."

/-- Result of a successful `saveImageToAssets`: the path written (returned to
the handler as the asset url; the relative re-pathing of lines 177-178 is
dropped, no claim depends on it) and the file system after the write. -/
structure SavedImage where
  savedPath : String
  fsAfter : List String
deriving DecidableEq

/-- Embedding of `saveImageToAssets` (lines 144-179).  Note the unique-name probe runs
before payload validation, exactly as in the source. -/
def saveImageToAssets (fsEntries : List String)
    (assetsDir baseName extension stamp : String) (dataBase64 : List Char) :
    Except String SavedImage :=
  match createUniqueImageFilePath fsEntries assetsDir baseName extension stamp with
  | Except.error e => Except.error e
  | Except.ok absolutePath =>
    let raw := stripDataUri dataBase64
    if matchesBase64Regex raw = false then Except.error "Invalid base64 image data."
    else
      let bufferLength := base64DecodedLength raw
      if bufferLength = 0 then Except.error "Image data is empty. Save failed."
      else if 10 * 1024 * 1024 < bufferLength then
        Except.error (sizeLimitErrorMessage bufferLength)
      else Except.ok { savedPath := absolutePath, fsAfter := fsEntries ++ [absolutePath] }

/-- The `upload-image-result` message shape. -/
structure UploadImageResultMessage where
  requestId : String
  ok : Bool
  url : Option String
  error : Option String
deriving DecidableEq

/-- The `upload-image` branch of the host message handler (lines 355-404):
guards on `requestId` and `dataBase64` (a missing value or empty string is
falsy), then runs `saveImageToAssets` inside try/catch, converting a thrown
error into a negative result.  Returns the posted result messages and the
file system afterwards. -/
def handleUploadImage (fsEntries : List String)
    (assetsDir baseName extension stamp : String)
    (requestId : Option String) (dataBase64 : Option (List Char)) :
    List UploadImageResultMessage × List String :=
  match requestId with
  | none =>
    ([{ requestId := "", ok := false, url := none, error := some "Missing requestId." }],
      fsEntries)
  | some rid =>
    if rid = "" then
      ([{ requestId := rid, ok := false, url := none, error := some "Missing requestId." }],
        fsEntries)
    else
      match dataBase64 with
      | none =>
        ([{ requestId := rid, ok := false, url := none, error := some "Invalid image data." }],
          fsEntries)
      | some payload =>
        if payload = [] then
          ([{ requestId := rid, ok := false, url := none,
              error := some "Invalid image data." }], fsEntries)
        else
          match saveImageToAssets fsEntries assetsDir baseName extension stamp payload with
          | Except.ok saved =>
            ([{ requestId := rid, ok := true, url := some saved.savedPath, error := none }],
              saved.fsAfter)
          | Except.error e =>
            ([{ requestId := rid, ok := false, url := none, error := some e }], fsEntries)

/-- C5: every `upload-image` message the host receives is answered with
exactly one `upload-image-result`, and that result carries the request's
`requestId` (the empty string standing in when the request carried none) —
on the success path, on every validation-failure path, and on the
missing-requestId and missing-dataBase64 paths alike. -/
theorem handleUploadImage_one_result (fsEntries : List String)
    (assetsDir baseName extension stamp : String)
    (requestId : Option String) (dataBase64 : Option (List Char)) :
    ∃ m : UploadImageResultMessage,
      (handleUploadImage fsEntries assetsDir baseName extension stamp
          requestId dataBase64).1 = [m] ∧
        m.requestId = requestId.getD "" := by
  unfold handleUploadImage
  cases requestId with
  | none => exact ⟨_, rfl, rfl⟩
  | some rid =>
    dsimp only
    by_cases hrid : rid = ""
    · rw [if_pos hrid]
      exact ⟨_, rfl, rfl⟩
    · rw [if_neg hrid]
      cases dataBase64 with
      | none => exact ⟨_, rfl, rfl⟩
      | some payload =>
        dsimp only
        by_cases hpay : payload = []
        · rw [if_pos hpay]
          exact ⟨_, rfl, rfl⟩
        · rw [if_neg hpay]
          cases hsave : saveImageToAssets fsEntries assetsDir baseName extension stamp payload with
          | ok saved => exact ⟨_, rfl, rfl⟩
          | error e => exact ⟨_, rfl, rfl⟩

theorem probeUniquePath_ok (fsEntries : List String)
    (assetsDir baseName stamp extension : String) :
    ∀ (fuel start k : Nat), k < fuel →
      (∀ i, i < k → candidatePath assetsDir baseName stamp extension (start + i) ∈ fsEntries) →
      candidatePath assetsDir baseName stamp extension (start + k) ∉ fsEntries →
      probeUniquePath fsEntries assetsDir baseName stamp extension start fuel =
        Except.ok (candidatePath assetsDir baseName stamp extension (start + k)) := by
  intro fuel
  induction fuel with
  | zero => intro start k hk; exact absurd hk (Nat.not_lt_zero k)
  | succ fuel ih =>
    intro start k hk hall hfree
    cases k with
    | zero =>
      simp only [Nat.add_zero] at hfree ⊢
      simp only [probeUniquePath]
      rw [if_neg hfree]
    | succ k =>
      simp only [probeUniquePath]
      rw [if_pos (by simpa using hall 0 (Nat.succ_pos k))]
      rw [show start + (k + 1) = (start + 1) + k from by omega]
      exact ih (start + 1) k (Nat.lt_of_succ_lt_succ hk)
        (fun i hi => by
          rw [show start + 1 + i = start + (i + 1) from by omega]
          exact hall (i + 1) (Nat.succ_lt_succ hi))
        (by
          rw [show start + 1 + k = start + (k + 1) from by omega]
          exact hfree)

theorem probeUniquePath_exhausted (fsEntries : List String)
    (assetsDir baseName stamp extension : String) :
    ∀ (fuel start : Nat),
      (∀ i, i < fuel → candidatePath assetsDir baseName stamp extension (start + i) ∈ fsEntries) →
      probeUniquePath fsEntries assetsDir baseName stamp extension start fuel =
        Except.error "Could not generate a unique image filename. Please try again." := by
  intro fuel
  induction fuel with
  | zero => intro start _; rfl
  | succ fuel ih =>
    intro start hall
    simp only [probeUniquePath]
    rw [if_pos (by simpa using hall 0 (Nat.succ_pos fuel))]
    exact ih (start + 1) (fun i hi => by
      rw [show start + 1 + i = start + (i + 1) from by omega]
      exact hall (i + 1) (Nat.succ_lt_succ hi))

/-- C7: the unique-filename generator probes `base-stamp.ext`,
`base-stamp-1.ext`, `base-stamp-2.ext`, ... in order: when the first `k`
candidates (the unsuffixed name plus suffixes `-1` .. `-(k-1)`) all collide
with existing files and candidate `k` is free, it returns candidate `k`
(so one collision yields suffix `-1`, a second yields `-2`, and so on); and
when all 1000 candidate names collide it fails with an error instead of
overwriting any existing file. -/
theorem createUniqueImageFilePath_spec (fsEntries : List String)
    (assetsDir baseName extension stamp : String) :
    (∀ k : Nat, k < 1000 →
      (∀ i, i < k → candidatePath assetsDir baseName stamp extension i ∈ fsEntries) →
      candidatePath assetsDir baseName stamp extension k ∉ fsEntries →
      createUniqueImageFilePath fsEntries assetsDir baseName extension stamp =
        Except.ok (candidatePath assetsDir baseName stamp extension k)) ∧
    ((∀ i, i < 1000 → candidatePath assetsDir baseName stamp extension i ∈ fsEntries) →
      createUniqueImageFilePath fsEntries assetsDir baseName extension stamp =
        Except.error "Could not generate a unique image filename. Please try again.") := by
  constructor
  · intro k hk hall hfree
    unfold createUniqueImageFilePath
    have h := probeUniquePath_ok fsEntries assetsDir baseName stamp extension 1000 0 k hk
      (fun i hi => by simpa using hall i hi) (by simpa using hfree)
    simpa using h
  · intro hall
    exact probeUniquePath_exhausted fsEntries assetsDir baseName stamp extension 1000 0
      (fun i hi => by simpa using hall i hi)

/-- A file system already holding the unsuffixed candidate name. -/
def collidingAssets : List String :=
  [candidatePath "assets" "image" "20240101-000000" ".png" 0]

/-- Witness for C7 at a concrete collision: with
`assets/image-20240101-000000.png` existing, the generator returns
`assets/image-20240101-000000-1.png`. -/
theorem createUniqueImageFilePath_spec_witness :
    (1 : Nat) < 1000 ∧
    (∀ i, i < 1 →
      candidatePath "assets" "image" "20240101-000000" ".png" i ∈ collidingAssets) ∧
    candidatePath "assets" "image" "20240101-000000" ".png" 1 ∉ collidingAssets ∧
    createUniqueImageFilePath collidingAssets "assets" "image" ".png" "20240101-000000" =
      Except.ok "assets/image-20240101-000000-1.png" := by
  refine ⟨by decide, by decide, by decide, ?_⟩
  have h := (createUniqueImageFilePath_spec collidingAssets
      "assets" "image" ".png" "20240101-000000").1 1 (by decide) (by decide) (by decide)
  rw [h]
  rfl

theorem takeWhile_append_of_all (p : Char → Bool) (body pad : List Char)
    (hb : ∀ c ∈ body, p c = true) :
    (body ++ pad).takeWhile p = body ++ pad.takeWhile p := by
  induction body with
  | nil => simp
  | cons c rest ih =>
    rw [List.cons_append, List.takeWhile_cons, if_pos (hb c (List.mem_cons_self c rest))]
    rw [ih (fun x hx => hb x (List.mem_cons_of_mem c hx)), List.cons_append]

theorem dropWhile_append_of_all (p : Char → Bool) (body pad : List Char)
    (hb : ∀ c ∈ body, p c = true) :
    (body ++ pad).dropWhile p = pad.dropWhile p := by
  induction body with
  | nil => simp
  | cons c rest ih =>
    rw [List.cons_append, List.dropWhile_cons, if_pos (hb c (List.mem_cons_self c rest))]
    exact ih (fun x hx => hb x (List.mem_cons_of_mem c hx))

theorem takeWhile_of_all_pad (pad : List Char) (hp : ∀ c ∈ pad, c = '=') :
    pad.takeWhile isBase64WordChar = [] := by
  cases pad with
  | nil => rfl
  | cons c rest =>
    rw [List.takeWhile_cons, if_neg]
    rw [hp c (List.mem_cons_self c rest)]
    decide

theorem dropWhile_of_all_pad (pad : List Char) (hp : ∀ c ∈ pad, c = '=') :
    pad.dropWhile isBase64WordChar = pad := by
  cases pad with
  | nil => rfl
  | cons c rest =>
    rw [List.dropWhile_cons, if_neg]
    rw [hp c (List.mem_cons_self c rest)]
    decide

/-- Semantics of the pattern `^[\w+/]+=*$`: a string matches exactly when it
splits into a nonempty run of `[\w+/]` characters followed by `'='`s. -/
theorem matchesBase64Regex_iff (l : List Char) :
    matchesBase64Regex l = true ↔
      ∃ body pad : List Char, l = body ++ pad ∧ body ≠ [] ∧
        (∀ c ∈ body, isBase64WordChar c = true) ∧ (∀ c ∈ pad, c = '=') := by
  constructor
  · intro h
    unfold matchesBase64Regex at h
    rw [Bool.and_eq_true] at h
    refine ⟨l.takeWhile isBase64WordChar, l.dropWhile isBase64WordChar,
      (List.takeWhile_append_dropWhile (p := isBase64WordChar) (l := l)).symm, ?_, ?_, ?_⟩
    · intro hnil
      rw [hnil] at h
      exact absurd h.1 (by decide)
    · exact fun c hc => List.mem_takeWhile_imp hc
    · intro c hc
      have := List.all_eq_true.mp h.2 c hc
      simpa using this
  · rintro ⟨body, pad, rfl, hne, hbody, hpad⟩
    unfold matchesBase64Regex
    rw [Bool.and_eq_true]
    constructor
    · rw [takeWhile_append_of_all isBase64WordChar body pad hbody,
        takeWhile_of_all_pad pad hpad, List.append_nil]
      cases body with
      | nil => exact absurd rfl hne
      | cons c rest => rfl
    · rw [dropWhile_append_of_all isBase64WordChar body pad hbody,
        dropWhile_of_all_pad pad hpad]
      rw [List.all_eq_true]
      intro c hc
      rw [hpad c hc]
      decide

theorem sizeLimitErrorMessage_ne_invalid (n : Nat) :
    sizeLimitErrorMessage n ≠ "Invalid base64 image data." := by
  intro h
  have h2 := congrArg String.data h
  rw [sizeLimitErrorMessage, String.data_append, String.data_append] at h2
  have hlen : 2 ≤ ("Image exceeds the 10 MB size limit (got ".data
      ++ (mbTenths n).data).length := by
    rw [List.length_append]
    have h40 : ("Image exceeds the 10 MB size limit (got " : String).data.length = 40 := by
      decide
    omega
  have h3 := congrArg (List.take 2) h2
  rw [List.take_append_of_le_length hlen,
    List.take_append_of_le_length (by decide :
      (2 : Nat) ≤ ("Image exceeds the 10 MB size limit (got " : String).data.length)] at h3
  revert h3
  decide

theorem saveImageToAssets_invalid_iff (fsEntries : List String)
    (assetsDir baseName extension stamp : String) (d : List Char)
    (hname : ∃ p, createUniqueImageFilePath fsEntries assetsDir baseName extension stamp =
      Except.ok p) :
    saveImageToAssets fsEntries assetsDir baseName extension stamp d =
        Except.error "Invalid base64 image data." ↔
      matchesBase64Regex (stripDataUri d) = false := by
  rcases hname with ⟨p, hp⟩
  unfold saveImageToAssets
  rw [hp]
  dsimp only
  cases hm : matchesBase64Regex (stripDataUri d) with
  | false =>
    rw [if_pos rfl]
    simp
  | true =>
    rw [if_neg (by decide : ¬(true = false))]
    constructor
    · intro h
      by_cases h0 : base64DecodedLength (stripDataUri d) = 0
      · rw [if_pos h0] at h
        exact absurd (Except.error.inj h) (by decide)
      · rw [if_neg h0] at h
        by_cases hbig : 10 * 1024 * 1024 < base64DecodedLength (stripDataUri d)
        · rw [if_pos hbig] at h
          exact absurd (Except.error.inj h) (sizeLimitErrorMessage_ne_invalid _)
        · rw [if_neg hbig] at h
          exact absurd h (by simp)
    · intro h
      exact absurd h (by decide)

/-- C8 counterexample: at the concrete payload `"_"` (no data-URI comma) the
claim fails: `'_'` is outside the claimed alphabet (A-Z, a-z, 0-9, `+`, `/`,
trailing `=`), so the claim requires an invalid-encoding rejection, but the
code's `^[\w+/]+=*$` check accepts `'_'` and the save fails later with the
empty-data error instead. -/
theorem base64_claim_false_at_underscore :
    ¬ ((saveImageToAssets [] "assets" "image" ".png" "20240101-000000" ['_'] =
          Except.error "Invalid base64 image data.") ↔
        ¬ ∃ body pad : List Char, stripDataUri ['_'] = body ++ pad ∧ body ≠ [] ∧
            (∀ c ∈ body, (c.isAlpha || c.isDigit || c == '+' || c == '/') = true) ∧
            (∀ c ∈ pad, c = '=')) := by
  intro h
  have hR : ¬ ∃ body pad : List Char, stripDataUri ['_'] = body ++ pad ∧ body ≠ [] ∧
      (∀ c ∈ body, (c.isAlpha || c.isDigit || c == '+' || c == '/') = true) ∧
      (∀ c ∈ pad, c = '=') := by
    rintro ⟨body, pad, hsplit, hne, hbody, hpad⟩
    rw [show stripDataUri ['_'] = ['_'] from rfl] at hsplit
    cases body with
    | nil => exact hne rfl
    | cons b rest =>
      have hb : b = '_' := by
        have hh := congrArg List.head? hsplit
        rw [List.cons_append] at hh
        exact (Option.some.inj hh).symm
      have := hbody b (List.mem_cons_self b rest)
      rw [hb] at this
      exact absurd this (by decide)
  have hsave := h.mpr hR
  have hempty : saveImageToAssets [] "assets" "image" ".png" "20240101-000000" ['_'] =
      Except.error "Image data is empty. Save failed." := rfl
  rw [hempty] at hsave
  exact absurd (Except.error.inj hsave) (by decide)

/-- C8 amended: after stripping a data-URI head (everything up to and
including the first comma), the host rejects the payload with the
invalid-encoding error if and only if the remainder fails `^[\w+/]+=*$`,
i.e. exactly when it is NOT a nonempty run of characters from A-Z, a-z,
0-9, `_`, `+`, `/` followed by zero or more trailing `=`; in particular
`_` is accepted and an empty remainder is rejected. -/
theorem saveImageToAssets_rejects_iff (fsEntries : List String)
    (assetsDir baseName extension stamp : String) (d : List Char)
    (hname : ∃ p, createUniqueImageFilePath fsEntries assetsDir baseName extension stamp =
      Except.ok p) :
    (saveImageToAssets fsEntries assetsDir baseName extension stamp d =
        Except.error "Invalid base64 image data." ↔
      matchesBase64Regex (stripDataUri d) = false) ∧
    (matchesBase64Regex (stripDataUri d) = true ↔
      ∃ body pad : List Char, stripDataUri d = body ++ pad ∧ body ≠ [] ∧
        (∀ c ∈ body, isBase64WordChar c = true) ∧ (∀ c ∈ pad, c = '=')) :=
  ⟨saveImageToAssets_invalid_iff fsEntries assetsDir baseName extension stamp d hname,
    matchesBase64Regex_iff (stripDataUri d)⟩

/-- Witness for C8's amended theorem: with no colliding assets, the payload
`"!"` (a character outside `[\w+/]`) is rejected with the invalid-encoding
error. -/
theorem saveImageToAssets_rejects_iff_witness :
    (∃ p, createUniqueImageFilePath [] "assets" "image" ".png" "20240101-000000" =
      Except.ok p) ∧
    saveImageToAssets [] "assets" "image" ".png" "20240101-000000" ['!'] =
      Except.error "Invalid base64 image data." :=
  ⟨⟨candidatePath "assets" "image" "20240101-000000" ".png" 0, rfl⟩,
    (saveImageToAssets_rejects_iff [] "assets" "image" ".png" "20240101-000000" ['!']
      ⟨candidatePath "assets" "image" "20240101-000000" ".png" 0, rfl⟩).1.mpr (by decide)⟩

theorem sizeLimitErrorMessage_mentions_limit (n : Nat) :
    ∃ pre suf : List Char,
      (sizeLimitErrorMessage n).data = pre ++ ("10 MB" : String).data ++ suf := by
  refine ⟨("Image exceeds the " : String).data,
    (" size limit (got " : String).data ++ (mbTenths n).data ++ (" MB)." : String).data, ?_⟩
  rw [sizeLimitErrorMessage, String.data_append, String.data_append]
  rw [show ("Image exceeds the 10 MB size limit (got " : String).data =
      ("Image exceeds the " : String).data ++ ("10 MB" : String).data ++
        (" size limit (got " : String).data from by decide]
  simp only [List.append_assoc]

theorem stripDataUri_of_no_comma (l : List Char) (h : ',' ∉ l) : stripDataUri l = l := by
  unfold stripDataUri
  rw [if_neg h]

theorem matchesBase64Regex_ne_nil (d : List Char)
    (h : matchesBase64Regex (stripDataUri d) = true) : d ≠ [] := by
  intro hnil
  subst hnil
  exact absurd h (by decide)

/-- C6 amended: provided unique-filename generation succeeds, an
`upload-image` payload whose remainder is valid base64 and decodes to more
than 10 MiB is answered with a single result with `ok := false` whose error
message contains "10 MB", and no file is written (the error is caught at the
host boundary and converted into the result message); a payload decoding to
zero bytes is likewise answered with `ok := false` and no file written. -/
theorem handleUploadImage_oversized_or_empty (fsEntries : List String)
    (assetsDir baseName extension stamp : String) (rid : String) (d : List Char)
    (hrid : ¬rid = "")
    (hname : ∃ p, createUniqueImageFilePath fsEntries assetsDir baseName extension stamp =
      Except.ok p)
    (hvalid : matchesBase64Regex (stripDataUri d) = true) :
    (10 * 1024 * 1024 < base64DecodedLength (stripDataUri d) →
      ∃ msg : String,
        handleUploadImage fsEntries assetsDir baseName extension stamp
            (some rid) (some d) =
          ([{ requestId := rid, ok := false, url := none, error := some msg }], fsEntries) ∧
        ∃ pre suf : List Char, msg.data = pre ++ ("10 MB" : String).data ++ suf) ∧
    (base64DecodedLength (stripDataUri d) = 0 →
      handleUploadImage fsEntries assetsDir baseName extension stamp
          (some rid) (some d) =
        ([{ requestId := rid, ok := false, url := none,
            error := some "Image data is empty. Save failed." }], fsEntries)) := by
  rcases hname with ⟨p, hp⟩
  have hdne : ¬d = [] := matchesBase64Regex_ne_nil d hvalid
  constructor
  · intro hbig
    have h0 : ¬base64DecodedLength (stripDataUri d) = 0 := by omega
    have hsave : saveImageToAssets fsEntries assetsDir baseName extension stamp d =
        Except.error (sizeLimitErrorMessage (base64DecodedLength (stripDataUri d))) := by
      unfold saveImageToAssets
      rw [hp]
      dsimp only
      rw [if_neg (by rw [hvalid]; decide), if_neg h0, if_pos hbig]
    refine ⟨sizeLimitErrorMessage (base64DecodedLength (stripDataUri d)), ?_,
      sizeLimitErrorMessage_mentions_limit _⟩
    unfold handleUploadImage
    dsimp only
    rw [if_neg hrid, if_neg hdne, hsave]
  · intro h0
    have hsave : saveImageToAssets fsEntries assetsDir baseName extension stamp d =
        Except.error "Image data is empty. Save failed." := by
      unfold saveImageToAssets
      rw [hp]
      dsimp only
      rw [if_neg (by rw [hvalid]; decide), if_pos h0]
    unfold handleUploadImage
    dsimp only
    rw [if_neg hrid, if_neg hdne, hsave]

theorem saveImageToAssets_of_probe_error (fsEntries : List String)
    (assetsDir baseName extension stamp : String) (d : List Char) (e : String)
    (h : createUniqueImageFilePath fsEntries assetsDir baseName extension stamp =
      Except.error e) :
    saveImageToAssets fsEntries assetsDir baseName extension stamp d = Except.error e := by
  unfold saveImageToAssets
  rw [h]

theorem handleUploadImage_of_save_error (fsEntries : List String)
    (assetsDir baseName extension stamp : String) (rid : String) (d : List Char) (e : String)
    (hrid : ¬rid = "") (hdne : ¬d = [])
    (hsave : saveImageToAssets fsEntries assetsDir baseName extension stamp d =
      Except.error e) :
    handleUploadImage fsEntries assetsDir baseName extension stamp (some rid) (some d) =
      ([{ requestId := rid, ok := false, url := none, error := some e }], fsEntries) := by
  unfold handleUploadImage
  dsimp only
  rw [if_neg hrid, if_neg hdne, hsave]

/-- A file system in which all 1000 candidate names already exist. -/
def exhaustedAssets : List String :=
  (List.range 1000).map (candidatePath "assets" "image" "20240101-000000" ".png")

/-- A valid base64 payload decoding to 14680064 * 3 / 4 = 11010048 bytes,
which exceeds the 10 MiB limit. -/
def hugePayload : List Char := List.replicate 14680064 'A'

theorem stripDataUri_replicate_A (n : Nat) :
    stripDataUri (List.replicate n 'A') = List.replicate n 'A' := by
  apply stripDataUri_of_no_comma
  intro hmem
  exact absurd (List.mem_replicate.mp hmem).2 (by decide)

theorem takeWhile_replicate_A (n : Nat) :
    (List.replicate n 'A').takeWhile isBase64WordChar = List.replicate n 'A' := by
  induction n with
  | zero => rfl
  | succ n ih =>
    rw [List.replicate_succ, List.takeWhile_cons,
      if_pos (by decide : isBase64WordChar 'A' = true), ih]

theorem dropWhile_replicate_A (n : Nat) :
    (List.replicate n 'A').dropWhile isBase64WordChar = [] := by
  induction n with
  | zero => rfl
  | succ n ih =>
    rw [List.replicate_succ, List.dropWhile_cons,
      if_pos (by decide : isBase64WordChar 'A' = true)]
    exact ih

theorem matchesBase64Regex_replicate_A (n : Nat) (hn : 0 < n) :
    matchesBase64Regex (List.replicate n 'A') = true := by
  unfold matchesBase64Regex
  rw [takeWhile_replicate_A, dropWhile_replicate_A]
  cases n with
  | zero => exact absurd hn (by decide)
  | succ n => rw [List.replicate_succ]; rfl

theorem filter_replicate_A (n : Nat) :
    (List.replicate n 'A').filter (fun c => !(c == '=')) = List.replicate n 'A' := by
  induction n with
  | zero => rfl
  | succ n ih =>
    rw [List.replicate_succ, List.filter_cons]
    simp only [show (fun c => !(c == '=')) 'A' = true from by decide, if_pos, ih]

theorem base64DecodedLength_replicate_A (n : Nat) :
    base64DecodedLength (List.replicate n 'A') = n * 3 / 4 := by
  unfold base64DecodedLength
  rw [filter_replicate_A, List.length_replicate]

theorem hugePayload_valid : matchesBase64Regex (stripDataUri hugePayload) = true := by
  unfold hugePayload
  rw [stripDataUri_replicate_A]
  exact matchesBase64Regex_replicate_A _ (by norm_num)

theorem hugePayload_oversized :
    10 * 1024 * 1024 < base64DecodedLength (stripDataUri hugePayload) := by
  unfold hugePayload
  rw [stripDataUri_replicate_A, base64DecodedLength_replicate_A]
  norm_num

/-- C6 counterexample: the claim fails when all 1000 candidate file names
already exist, because the unique-name probe runs before the size check: at
this concrete input the payload decodes to more than 10 MiB, yet the result's
error message is the name-generation error, which does not contain "10 MB"
(no file is written, and the result still has `ok := false`). -/
theorem oversized_claim_false_when_names_exhausted :
    10 * 1024 * 1024 < base64DecodedLength (stripDataUri hugePayload) ∧
    handleUploadImage exhaustedAssets "assets" "image" ".png" "20240101-000000"
        (some "req-1") (some hugePayload) =
      ([{ requestId := "req-1", ok := false, url := none,
          error := some "Could not generate a unique image filename. Please try again." }],
        exhaustedAssets) ∧
    ¬ ∃ pre suf : List Char,
        ("Could not generate a unique image filename. Please try again." : String).data =
          pre ++ ("10 MB" : String).data ++ suf := by
  refine ⟨hugePayload_oversized, ?_, ?_⟩
  · have hdne : ¬hugePayload = [] := matchesBase64Regex_ne_nil hugePayload hugePayload_valid
    have hprobe : createUniqueImageFilePath exhaustedAssets
        "assets" "image" ".png" "20240101-000000" =
        Except.error "Could not generate a unique image filename. Please try again." := by
      unfold createUniqueImageFilePath
      apply probeUniquePath_exhausted
      intro i hi
      rw [Nat.zero_add]
      exact List.mem_map.mpr ⟨i, List.mem_range.mpr hi, rfl⟩
    exact handleUploadImage_of_save_error exhaustedAssets "assets" "image" ".png"
      "20240101-000000" "req-1" hugePayload _ (by decide) hdne
      (saveImageToAssets_of_probe_error exhaustedAssets "assets" "image" ".png"
        "20240101-000000" hugePayload _ hprobe)
  · rintro ⟨pre, suf, h⟩
    have h1 : ('1' : Char) ∈
        ("Could not generate a unique image filename. Please try again." : String).data := by
      rw [h]
      refine List.mem_append.mpr (Or.inl ?_)
      exact List.mem_append.mpr (Or.inr (by decide))
    exact absurd h1 (by decide)

/-- Witness for C6's amended theorem at the concrete oversized payload. -/
theorem handleUploadImage_oversized_witness :
    ¬("req-1" : String) = "" ∧
    (∃ p, createUniqueImageFilePath [] "assets" "image" ".png" "20240101-000000" =
      Except.ok p) ∧
    matchesBase64Regex (stripDataUri hugePayload) = true ∧
    10 * 1024 * 1024 < base64DecodedLength (stripDataUri hugePayload) ∧
    ∃ msg : String,
      handleUploadImage [] "assets" "image" ".png" "20240101-000000"
          (some "req-1") (some hugePayload) =
        ([{ requestId := "req-1", ok := false, url := none, error := some msg }], []) ∧
      ∃ pre suf : List Char, msg.data = pre ++ ("10 MB" : String).data ++ suf :=
  ⟨by decide,
    ⟨candidatePath "assets" "image" "20240101-000000" ".png" 0, rfl⟩,
    hugePayload_valid, hugePayload_oversized,
    (handleUploadImage_oversized_or_empty [] "assets" "image" ".png" "20240101-000000"
      "req-1" hugePayload (by decide)
      ⟨candidatePath "assets" "image" "20240101-000000" ".png" 0, rfl⟩
      hugePayload_valid).1 hugePayload_oversized⟩

end MdEditor
